import Mathlib

/-!
Shallow embedding of the elflib ELF loader (src/data.rs, src/view.rs,
src/ctrl.rs).

Bytes are modelled as `Nat` values; multi-byte machine integers are `Nat`
read little-endian (bincode fix-int encoding), with an explicit `% 2 ^ w`
where a source cast truncates.  Strings are byte lists (`List Nat`): the
source builds Rust strings by pushing each byte as a `char`, which is an
injective image of the byte list.  Rust panics (`unwrap`, `todo!`,
`debug_assert_eq!`, `unreachable!`, out-of-range slicing/indexing) are
modelled as `LoadResult.err` values; the source's `unsafe` enum transmutes
are partial functions: a bit pattern that is not a declared discriminant of
the target enum has no defined result, modelled as `Option.none` and
propagated as `LoadResult.undef`.
-/

/-- Little-endian value of a byte list (bincode fix-int encoding, little endian). -/
def leVal : List Nat → Nat
  | [] => 0
  | b :: rest => b + 256 * leVal rest

/-- Rust sliceBytes `m[off .. off + len]`; `none` models the out-of-range panic. -/
def sliceBytes (m : List Nat) (off len : Nat) : Option (List Nat) :=
  if off + len ≤ m.length then some ((m.drop off).take len) else none

/-- Bytes `[off, off + n)` of an already-sliced record buffer. -/
def bytesAt (s : List Nat) (off n : Nat) : List Nat :=
  (s.drop off).take n

/-! data.rs: raw fixed-layout records -/

/-- data.rs `EIdent`: the 16-byte identification block. -/
structure EIdent where
  magic_nums : List Nat
  cls : Nat
  data : Nat
  version : Nat
  osabi : Nat
  abiversion : Nat
  pad : List Nat
  nident : Nat
deriving DecidableEq

/-- bincode deserialization of `EIdent` from an exactly 16-byte sliceBytes
(`options().with_fixint_encoding()` rejects both short and trailing input). -/
def parseEIdent (s : List Nat) : Option EIdent :=
  if s.length = 16 then
    some { magic_nums := s.take 4, cls := leVal (bytesAt s 4 1),
           data := leVal (bytesAt s 5 1), version := leVal (bytesAt s 6 1),
           osabi := leVal (bytesAt s 7 1), abiversion := leVal (bytesAt s 8 1),
           pad := bytesAt s 9 6, nident := leVal (bytesAt s 15 1) }
  else none

/-- data.rs `E64Hdr`: the 64-bit file header (64 bytes). -/
structure E64Hdr where
  ident : EIdent
  ty : Nat
  machine : Nat
  version : Nat
  entry : Nat
  phoff : Nat
  shoff : Nat
  flags : Nat
  ehsize : Nat
  ph_tab_entry_size : Nat
  ph_tab_entry_num : Nat
  sh_tab_entry_size : Nat
  sh_tab_entry_num : Nat
  sh_strtab_idx : Nat
deriving DecidableEq

/-- bincode deserialization of `E64Hdr` from an exactly 64-byte sliceBytes. -/
def parseE64Hdr (s : List Nat) : Option E64Hdr :=
  if s.length = 64 then
    match parseEIdent (s.take 16) with
    | none => none
    | some ident =>
      some { ident := ident, ty := leVal (bytesAt s 16 2),
             machine := leVal (bytesAt s 18 2), version := leVal (bytesAt s 20 4),
             entry := leVal (bytesAt s 24 8), phoff := leVal (bytesAt s 32 8),
             shoff := leVal (bytesAt s 40 8), flags := leVal (bytesAt s 48 4),
             ehsize := leVal (bytesAt s 52 2),
             ph_tab_entry_size := leVal (bytesAt s 54 2),
             ph_tab_entry_num := leVal (bytesAt s 56 2),
             sh_tab_entry_size := leVal (bytesAt s 58 2),
             sh_tab_entry_num := leVal (bytesAt s 60 2),
             sh_strtab_idx := leVal (bytesAt s 62 2) }
  else none

/-- data.rs `E64Shdr`: a raw 64-bit section header record (64 bytes). -/
structure E64Shdr where
  name : Nat
  ty : Nat
  flags : Nat
  addr : Nat
  offset : Nat
  size : Nat
  link : Nat
  info : Nat
  addr_align : Nat
  ent_size : Nat
deriving DecidableEq

/-- bincode deserialization of `E64Shdr` from an exactly 64-byte sliceBytes. -/
def parseE64Shdr (s : List Nat) : Option E64Shdr :=
  if s.length = 64 then
    some { name := leVal (bytesAt s 0 4), ty := leVal (bytesAt s 4 4),
           flags := leVal (bytesAt s 8 8), addr := leVal (bytesAt s 16 8),
           offset := leVal (bytesAt s 24 8), size := leVal (bytesAt s 32 8),
           link := leVal (bytesAt s 40 4), info := leVal (bytesAt s 44 4),
           addr_align := leVal (bytesAt s 48 8), ent_size := leVal (bytesAt s 56 8) }
  else none

/-- data.rs `E64Sym`: a raw 64-bit symbol record (24 bytes). -/
structure E64Sym where
  name : Nat
  info : Nat
  other : Nat
  shndx : Nat
  value : Nat
  size : Nat
deriving DecidableEq

/-- bincode deserialization of `E64Sym` from an exactly 24-byte sliceBytes. -/
def parseE64Sym (s : List Nat) : Option E64Sym :=
  if s.length = 24 then
    some { name := leVal (bytesAt s 0 4), info := leVal (bytesAt s 4 1),
           other := leVal (bytesAt s 5 1), shndx := leVal (bytesAt s 6 2),
           value := leVal (bytesAt s 8 8), size := leVal (bytesAt s 16 8) }
  else none

/-- data.rs `StrTab`: a raw string-table byte buffer. -/
structure StrTab where
  bytes : List Nat
deriving DecidableEq

/-- data.rs `StrTab::empty`. -/
def StrTab.empty : StrTab := ⟨[]⟩

/-- data.rs `StrTab::new`. -/
def StrTab.new (v : List Nat) : StrTab := ⟨v⟩

/-- data.rs `StrTab::get`: the bytes from `idx` up to (excluding) the next
NUL; `none` when `idx` is not below the buffer length. -/
def StrTab.get (t : StrTab) (idx : Nat) : Option (List Nat) :=
  if idx ≥ t.bytes.length then none
  else some ((t.bytes.drop idx).takeWhile (fun c => c ≠ 0))

/-- Loop body of data.rs `StrTab::str_vec`: scan the remaining bytes with the
accumulated current entry, emitting the entry at each NUL (a trailing
unterminated run is dropped, exactly as in the source). -/
def strVecGo : List Nat → List Nat → List (List Nat)
  | [], _ => []
  | c :: rest, acc => if c = 0 then acc :: strVecGo rest [] else strVecGo rest (acc ++ [c])

/-- data.rs `StrTab::str_vec`: enumerate the entries, splitting on NUL from
position 1 onward; an empty buffer gives no entries. -/
def StrTab.str_vec (t : StrTab) : List (List Nat) :=
  match t.bytes with
  | [] => []
  | _ :: rest => strVecGo rest []

/-- Enumeration of string-table entries paired with the byte offset each
entry starts at, following the same scan as `StrTab.str_vec` (offsets are
what `StrTab.get` is addressed with). -/
def strEntGo : List Nat → Nat → List Nat → List (Nat × List Nat)
  | [], _, _ => []
  | c :: rest, start, acc =>
    if c = 0 then (start, acc) :: strEntGo rest (start + acc.length + 1) []
    else strEntGo rest start (acc ++ [c])

/-- Entries of a string-table buffer with their starting byte offsets. -/
def strEntriesWithOff (b : List Nat) : List (Nat × List Nat) :=
  match b with
  | [] => []
  | _ :: rest => strEntGo rest 1 []

/-! view.rs: enumerations and numeric-to-symbolic conversions -/

/-- view.rs `EIClass`. -/
inductive EIClass where
  | Invalid
  | Bit32
  | Bit64
deriving DecidableEq

/-- The source's `unsafe transmute` of the class byte into `EIClass`:
defined only for the declared discriminants 0, 1, 2. -/
def EIClass.transmute (b : Nat) : Option EIClass :=
  if b = 0 then some EIClass.Invalid
  else if b = 1 then some EIClass.Bit32
  else if b = 2 then some EIClass.Bit64
  else none

/-- view.rs `EIData`. -/
inductive EIData where
  | Invalid
  | LSB
  | MSB
deriving DecidableEq

/-- The source's `unsafe transmute` of the data-encoding byte into `EIData`. -/
def EIData.transmute (b : Nat) : Option EIData :=
  if b = 0 then some EIData.Invalid
  else if b = 1 then some EIData.LSB
  else if b = 2 then some EIData.MSB
  else none

/-- view.rs `EIdentView`. -/
structure EIdentView where
  magic_nums : List Nat
  cls : EIClass
  data : EIData
  version : Nat
  osabi : Nat
  abiversion : Nat
  nident : Nat
deriving DecidableEq

/-- ctrl.rs `impl Into<EIdentView> for EIdent` (two unchecked transmutes). -/
def EIdent.intoView (e : EIdent) : Option EIdentView :=
  match EIClass.transmute e.cls with
  | none => none
  | some c =>
    match EIData.transmute e.data with
    | none => none
    | some d =>
      some { magic_nums := e.magic_nums, cls := c, data := d,
             version := e.version, osabi := e.osabi,
             abiversion := e.abiversion, nident := e.nident }

/-- view.rs `EType` (object file type). -/
inductive EType where
  | None
  | REL
  | EXEC
  | DYN
  | CORE
  | LOOS
  | HIOS
  | LOPROC
  | HIPROC
deriving DecidableEq

/-- The source's `unsafe transmute` of the 16-bit type field into `EType`:
defined only for the declared discriminants. -/
def EType.transmute (v : Nat) : Option EType :=
  if v = 0 then some EType.None
  else if v = 1 then some EType.REL
  else if v = 2 then some EType.EXEC
  else if v = 3 then some EType.DYN
  else if v = 4 then some EType.CORE
  else if v = 0xfe00 then some EType.LOOS
  else if v = 0xfeff then some EType.HIOS
  else if v = 0xff00 then some EType.LOPROC
  else if v = 0xffff then some EType.HIPROC
  else none

/-- view.rs `EMachine`. -/
inductive EMachine where
  | None
  | SPARC
  | M386
  | M860
  | MIPS
  | M960
  | PPC
  | PPC64
  | IA64
  | MIPSX
  | X86_64
  | PJ
deriving DecidableEq

/-- The source's `unsafe transmute` of the 16-bit machine field into
`EMachine`: defined only for the declared discriminants. -/
def EMachine.transmute (v : Nat) : Option EMachine :=
  if v = 0 then some EMachine.None
  else if v = 2 then some EMachine.SPARC
  else if v = 3 then some EMachine.M386
  else if v = 7 then some EMachine.M860
  else if v = 8 then some EMachine.MIPS
  else if v = 19 then some EMachine.M960
  else if v = 20 then some EMachine.PPC
  else if v = 21 then some EMachine.PPC64
  else if v = 50 then some EMachine.IA64
  else if v = 51 then some EMachine.MIPSX
  else if v = 62 then some EMachine.X86_64
  else if v = 91 then some EMachine.PJ
  else none

/-- view.rs `SID`: special section indices. -/
inductive SID where
  | Undef
  | Proc (x : Nat)
  | OS (x : Nat)
  | Abs
  | Common
  | XIndex
  | Normal (x : Nat)
deriving DecidableEq

/-- view.rs `impl From<u16> for SID`. -/
def SID.fromU16 (val : Nat) : SID :=
  if val = 0 then SID.Undef
  else if val = 0xfff1 then SID.Abs
  else if val = 0xfff2 then SID.Common
  else if val = 0xffff then SID.XIndex
  else if 0xff00 ≤ val ∧ val ≤ 0xff1f then SID.Proc val
  else if 0xff20 ≤ val ∧ val ≤ 0xff3f then SID.OS val
  else SID.Normal val

/-- view.rs `impl Into<usize> for SID`. -/
def SID.intoUsize : SID → Nat
  | SID.Undef => 0
  | SID.Proc x => x
  | SID.OS x => x
  | SID.Abs => 0xfff1
  | SID.Common => 0xfff2
  | SID.XIndex => 0xffff
  | SID.Normal x => x

/-- view.rs `EHdrView`. -/
structure EHdrView where
  ident : EIdentView
  ty : EType
  machine : EMachine
  version : Nat
  entry : Nat
  prog_hdr_offset : Nat
  section_hdr_offset : Nat
  flags : Nat
  elf_hdr_sz : Nat
  prog_hdr_tab_ent_sz : Nat
  prog_hdr_tab_ent_num : Nat
  section_hdr_ent_sz : Nat
  section_hdr_ent_num : Nat
  section_str_tab_idx : SID
deriving DecidableEq

/-- view.rs `impl Into<EHdrView> for E64Hdr` (unchecked transmutes of the
type and machine fields, `SID::from` on the string-table index). -/
def E64Hdr.intoView (h : E64Hdr) : Option EHdrView :=
  match EIdent.intoView h.ident with
  | none => none
  | some ident =>
    match EType.transmute h.ty with
    | none => none
    | some ty =>
      match EMachine.transmute h.machine with
      | none => none
      | some machine =>
        some { ident := ident, ty := ty, machine := machine,
               version := h.version, entry := h.entry,
               prog_hdr_offset := h.phoff, section_hdr_offset := h.shoff,
               flags := h.flags, elf_hdr_sz := h.ehsize,
               prog_hdr_tab_ent_sz := h.ph_tab_entry_size,
               prog_hdr_tab_ent_num := h.ph_tab_entry_num,
               section_hdr_ent_sz := h.sh_tab_entry_size,
               section_hdr_ent_num := h.sh_tab_entry_num,
               section_str_tab_idx := SID.fromU16 h.sh_strtab_idx }

/-- view.rs `SHType`: section types. -/
inductive SHType where
  | NULL
  | PROGBITS
  | SYMtab
  | STRtab
  | RELA
  | HASH
  | DYNAMIC
  | NOTE
  | NOBITS
  | REL
  | SHLIB
  | INITARRAY
  | FINIARRAY
  | PREINITARRAY
  | GROUP
  | SYMtabSHNDX
  | SPECOS (x : Nat)
  | SPECPROC (x : Nat)
  | SPECUSER (x : Nat)
deriving DecidableEq

/-- The source's `unsafe transmute::<u64, SHType>(val as u64)` in
`impl From<u32> for SHType`: a reinterpretation of the integer as an enum
value, defined by the language only when the integer is the discriminant of
a fieldless variant (0 through 15); every other value, including the
payload-carrying discriminants 16, 17, 18 whose layout is unspecified, has
no defined result. -/
def transmuteSHType (v : Nat) : Option SHType :=
  if v = 0 then some SHType.NULL
  else if v = 1 then some SHType.PROGBITS
  else if v = 2 then some SHType.SYMtab
  else if v = 3 then some SHType.STRtab
  else if v = 4 then some SHType.RELA
  else if v = 5 then some SHType.HASH
  else if v = 6 then some SHType.DYNAMIC
  else if v = 7 then some SHType.NOTE
  else if v = 8 then some SHType.NOBITS
  else if v = 9 then some SHType.REL
  else if v = 10 then some SHType.SHLIB
  else if v = 11 then some SHType.INITARRAY
  else if v = 12 then some SHType.FINIARRAY
  else if v = 13 then some SHType.PREINITARRAY
  else if v = 14 then some SHType.GROUP
  else if v = 15 then some SHType.SYMtabSHNDX
  else none

/-- view.rs `impl From<u32> for SHType`. -/
def SHType.fromU32 (val : Nat) : Option SHType :=
  if 0x60000000 ≤ val ∧ val ≤ 0x6fffffff then some (SHType.SPECOS val)
  else if 0x70000000 ≤ val ∧ val ≤ 0x7fffffff then some (SHType.SPECPROC val)
  else if 0x80000000 ≤ val then some (SHType.SPECUSER val)
  else transmuteSHType val

/-- view.rs `SHFlagBit`: section flag tokens. -/
inductive SHFlagBit where
  | Write
  | Alloc
  | ExecInstr
  | Merge
  | StringS
  | InfoLink
  | LinkOrder
  | OsNonconforming
  | Group
  | TLS
  | OS (x : Nat)
  | Proc (x : Nat)
deriving DecidableEq

/-- view.rs `impl From<u32> for SHFLAGS`, including the source's
`(val & 0x0ff0_0000) as u8` and `(val & 0xf000_0000) as u8` casts
(`% 256`). -/
def SHFLAGS.fromU32 (val : Nat) : List SHFlagBit :=
  (if val &&& 0x1 > 0 then [SHFlagBit.Write] else []) ++
  (if val &&& 0x2 > 0 then [SHFlagBit.Alloc] else []) ++
  (if val &&& 0x4 > 0 then [SHFlagBit.ExecInstr] else []) ++
  (if val &&& 0x10 > 0 then [SHFlagBit.Merge] else []) ++
  (if val &&& 0x20 > 0 then [SHFlagBit.StringS] else []) ++
  (if val &&& 0x40 > 0 then [SHFlagBit.InfoLink] else []) ++
  (if val &&& 0x80 > 0 then [SHFlagBit.LinkOrder] else []) ++
  (if val &&& 0x100 > 0 then [SHFlagBit.OsNonconforming] else []) ++
  (if val &&& 0x200 > 0 then [SHFlagBit.Group] else []) ++
  (if val &&& 0x400 > 0 then [SHFlagBit.TLS] else []) ++
  (if (val &&& 0x0ff00000) % 256 > 0 then [SHFlagBit.OS ((val &&& 0x0ff00000) % 256)] else []) ++
  (if (val &&& 0xf0000000) % 256 > 0 then [SHFlagBit.Proc ((val &&& 0xf0000000) % 256)] else [])

/-- view.rs `SHdrView`: a resolved section header. -/
structure SHdrView where
  name : List Nat
  ty : SHType
  flags : List SHFlagBit
  addr : Nat
  offset : Nat
  size : Nat
  link : Nat
  info : Nat
  addr_align : Nat
  ent_size : Nat
deriving DecidableEq

/-- view.rs `SHEntries::get`: linear scan for a section with the given name. -/
def SHEntries.get : List SHdrView → List Nat → Option SHdrView
  | [], _ => none
  | e :: rest, name => if e.name = name then some e else SHEntries.get rest name

/-- view.rs `SymBinding`. -/
inductive SymBinding where
  | Local
  | Global
  | Weak
  | OS (x : Nat)
  | Proc (x : Nat)
deriving DecidableEq

/-- view.rs `SymBinding::load_from_info`: top 4 bits of the info byte. -/
def SymBinding.load_from_info (info : Nat) : SymBinding :=
  let val := info >>> 4
  if val = 0 then SymBinding.Local
  else if val = 1 then SymBinding.Global
  else if val = 2 then SymBinding.Weak
  else if 10 ≤ val ∧ val ≤ 12 then SymBinding.OS val
  else SymBinding.Proc val

/-- view.rs `SymType`. -/
inductive SymType where
  | NoType
  | Object
  | Func
  | Section
  | File
  | Common
  | TLS
  | OS (x : Nat)
  | Proc (x : Nat)
deriving DecidableEq

/-- view.rs `SymType::load_from_info`: bottom 4 bits of the info byte. -/
def SymType.load_from_info (info : Nat) : SymType :=
  let val := info &&& 0xf
  if val = 0 then SymType.NoType
  else if val = 1 then SymType.Object
  else if val = 2 then SymType.Func
  else if val = 3 then SymType.Section
  else if val = 4 then SymType.File
  else if val = 5 then SymType.Common
  else if val = 6 then SymType.TLS
  else if 10 ≤ val ∧ val ≤ 12 then SymType.OS val
  else SymType.Proc val

/-- view.rs `SymVisi`. -/
inductive SymVisi where
  | Default
  | Internal
  | Hidden
  | Protected
deriving DecidableEq

/-- view.rs `SymVisi::load_from_other`: transmute of the bottom 2 bits,
always a declared discriminant (0..3), hence total. -/
def SymVisi.load_from_other (other : Nat) : SymVisi :=
  let val := other &&& 0x3
  if val = 0 then SymVisi.Default
  else if val = 1 then SymVisi.Internal
  else if val = 2 then SymVisi.Hidden
  else SymVisi.Protected

/-- view.rs `SymValue`: the context-typed symbol value. -/
inductive SymValue where
  | Alignment (v : Nat)
  | SectionOffset (v : Nat)
  | VirAddr (v : Nat)
deriving DecidableEq

/-- view.rs `SymView`: a resolved symbol. -/
structure SymView where
  name : List Nat
  bind : SymBinding
  ty : SymType
  visi : SymVisi
  shndx : SID
  value : SymValue
  size : Nat
deriving DecidableEq

/-! ctrl.rs: the load pipeline -/

/-- Failure outcomes of the loader: returned errors and panics. -/
inductive LoadErr where
  | decodeErr
  | unknownClass (v : EIdentView)
  | todoPanic
  | assertPanic
  | indexPanic
  | unwrapPanic
  | unreachablePanic
deriving DecidableEq

/-- Result of a load stage: a value, a failure (error return or panic), or
an undefined outcome from an invalid `unsafe` reinterpretation. -/
inductive LoadResult (α : Type) where
  | undef
  | err (e : LoadErr)
  | ok (a : α)
deriving DecidableEq

/-- ctrl.rs `Elf`: the top-level aggregate. -/
structure Elf where
  ehdr : EHdrView
  shstrtab : StrTab
  shentries : List SHdrView
  strtab : StrTab
  symtab : List SymView
  dynsym : List SymView
deriving DecidableEq

/-- Section name ".strtab" as bytes. -/
def strtabName : List Nat := [46, 115, 116, 114, 116, 97, 98]

/-- Section name ".symtab" as bytes. -/
def symtabName : List Nat := [46, 115, 121, 109, 116, 97, 98]

/-- Section name ".dynstr" as bytes. -/
def dynstrName : List Nat := [46, 100, 121, 110, 115, 116, 114]

/-- Section name ".dynsym" as bytes. -/
def dynsymName : List Nat := [46, 100, 121, 110, 115, 121, 109]

/-- Section name ".bss" as bytes. -/
def bssName : List Nat := [46, 98, 115, 115]

/-- ctrl.rs `load_strtab_from_sh`: build a string table from a named
section, or an empty one if the section is absent; a bad byte range panics. -/
def load_strtab_from_sh (shentries : List SHdrView) (secname : List Nat)
    (mmap : List Nat) : LoadResult StrTab :=
  match SHEntries.get shentries secname with
  | some sh =>
    match sliceBytes mmap sh.offset sh.size with
    | none => LoadResult.err LoadErr.indexPanic
    | some bs => LoadResult.ok (StrTab.new bs)
  | none => LoadResult.ok StrTab.empty

/-- ctrl.rs `load_sym64tab_from_sh`, value interpretation: from the file
type (`Alignment` for a Common symbol of a relocatable file, otherwise
`SectionOffset`; `VirAddr` for executables and shared objects); any other
file type hits `unreachable!`. -/
def symValueOf (ety : EType) (shndx : SID) (v : Nat) : LoadResult SymValue :=
  match ety with
  | EType.REL =>
    LoadResult.ok
      (if shndx = SID.Common then SymValue.Alignment v else SymValue.SectionOffset v)
  | EType.EXEC => LoadResult.ok (SymValue.VirAddr v)
  | EType.DYN => LoadResult.ok (SymValue.VirAddr v)
  | _ => LoadResult.err LoadErr.unreachablePanic

/-- ctrl.rs `load_sym64tab_from_sh`, per-record view construction: name via
string-table lookup defaulting to the empty string, bit-packed
binding/type/visibility decodes, `SID::from` on the section index, and the
context-typed value. -/
def symViewOf (strtab : StrTab) (ety : EType) (sym : E64Sym) : LoadResult SymView :=
  let name := (strtab.get sym.name).getD []
  let bind := SymBinding.load_from_info sym.info
  let ty := SymType.load_from_info sym.info
  let visi := SymVisi.load_from_other sym.other
  let shndx := SID.fromU16 sym.shndx
  match symValueOf ety shndx sym.value with
  | LoadResult.undef => LoadResult.undef
  | LoadResult.err e => LoadResult.err e
  | LoadResult.ok value =>
    LoadResult.ok { name := name, bind := bind, ty := ty, visi := visi,
                    shndx := shndx, value := value, size := sym.size }

/-- ctrl.rs `load_sym64tab_from_sh`, one loop iteration: sliceBytes record `i`,
deserialize it, build the view. -/
def decodeSym (mmap : List Nat) (strtab : StrTab) (ety : EType)
    (sec_off sym_sz i : Nat) : LoadResult SymView :=
  match sliceBytes mmap (sec_off + i * sym_sz) sym_sz with
  | none => LoadResult.err LoadErr.indexPanic
  | some s =>
    match parseE64Sym s with
    | none => LoadResult.err LoadErr.decodeErr
    | some sym => symViewOf strtab ety sym

/-- ctrl.rs `load_sym64tab_from_sh`, the record loop over indices `0..sym_num`. -/
def symLoop (mmap : List Nat) (strtab : StrTab) (ety : EType)
    (sec_off sym_sz : Nat) : List Nat → LoadResult (List SymView)
  | [] => LoadResult.ok []
  | i :: rest =>
    match decodeSym mmap strtab ety sec_off sym_sz i with
    | LoadResult.undef => LoadResult.undef
    | LoadResult.err e => LoadResult.err e
    | LoadResult.ok sv =>
      match symLoop mmap strtab ety sec_off sym_sz rest with
      | LoadResult.undef => LoadResult.undef
      | LoadResult.err e => LoadResult.err e
      | LoadResult.ok tail => LoadResult.ok (sv :: tail)

/-- ctrl.rs `load_sym64tab_from_sh`: an absent section gives the empty
table; `debug_assert_eq!(size_of::<E64Sym>(), sh.ent_size)` is fatal on
mismatch; otherwise decode `sh.size / 24` records from the section offset. -/
def load_sym64tab_from_sh (shentries : List SHdrView) (secname : List Nat)
    (strtab : StrTab) (ety : EType) (mmap : List Nat) : LoadResult (List SymView) :=
  match SHEntries.get shentries secname with
  | none => LoadResult.ok []
  | some sh =>
    if sh.ent_size ≠ 24 then LoadResult.err LoadErr.assertPanic
    else symLoop mmap strtab ety sh.offset 24 (List.range (sh.size / 24))

/-- ctrl.rs `Elf::load_64_from_mmap`, section-header decode loop. -/
def shLoop (mmap : List Nat) (shoff entry_size : Nat) : List Nat → LoadResult (List E64Shdr)
  | [] => LoadResult.ok []
  | i :: rest =>
    match sliceBytes mmap (shoff + i * entry_size) entry_size with
    | none => LoadResult.err LoadErr.indexPanic
    | some s =>
      match parseE64Shdr s with
      | none => LoadResult.err LoadErr.decodeErr
      | some ent =>
        match shLoop mmap shoff entry_size rest with
        | LoadResult.undef => LoadResult.undef
        | LoadResult.err e => LoadResult.err e
        | LoadResult.ok tail => LoadResult.ok (ent :: tail)

/-- ctrl.rs `Elf::load_64_from_mmap`: decode `entry_num` raw section
headers of `entry_size` bytes each starting at `shoff`. -/
def parseShEntries (mmap : List Nat) (shoff entry_size n : Nat) : LoadResult (List E64Shdr) :=
  shLoop mmap shoff entry_size (List.range n)

/-- ctrl.rs `Elf::load_64_from_mmap`, lines 90–95: pick the section-header
record holding the section-name string table; on the `SID::XIndex` escape
the real index is `sh_entries[0].link`, otherwise the declared index is
used via `Into::<usize>` (vector indexing panics when out of range). -/
def selectShstrEntry (v : EHdrView) (ents : List E64Shdr) : LoadResult E64Shdr :=
  if v.section_str_tab_idx = SID.XIndex then
    match ents[0]? with
    | none => LoadResult.err LoadErr.indexPanic
    | some e0 =>
      match ents[e0.link]? with
      | none => LoadResult.err LoadErr.indexPanic
      | some s => LoadResult.ok s
  else
    match ents[SID.intoUsize v.section_str_tab_idx]? with
    | none => LoadResult.err LoadErr.indexPanic
    | some s => LoadResult.ok s

/-- ctrl.rs `Elf::load_64_from_mmap`, per-record view construction: type
conversion (an unchecked transmute below 0x6000_0000), flag decode of the
flags truncated `as u32`, and name lookup whose failure is `unwrap`-fatal. -/
def shViewLoop (shstrtab : StrTab) : List E64Shdr → LoadResult (List SHdrView)
  | [] => LoadResult.ok []
  | ent :: rest =>
    match SHType.fromU32 ent.ty with
    | none => LoadResult.undef
    | some ty =>
      let flags := SHFLAGS.fromU32 (ent.flags % 4294967296)
      match shstrtab.get ent.name with
      | none => LoadResult.err LoadErr.unwrapPanic
      | some name =>
        match shViewLoop shstrtab rest with
        | LoadResult.undef => LoadResult.undef
        | LoadResult.err e => LoadResult.err e
        | LoadResult.ok tail =>
          LoadResult.ok ({ name := name, ty := ty, flags := flags,
                           addr := ent.addr, offset := ent.offset,
                           size := ent.size, link := ent.link, info := ent.info,
                           addr_align := ent.addr_align,
                           ent_size := ent.ent_size } :: tail)

/-- ctrl.rs `Elf::load_64_from_mmap`, the `shoff > 0` block: decode the raw
section headers, resolve the section-name string table (with the
extended-index escape), and build the resolved section views; a zero
section-header offset gives empty results without error. -/
def resolveSections (mmap : List Nat) (v : EHdrView) : LoadResult (StrTab × List SHdrView) :=
  if v.section_hdr_offset > 0 then
    match parseShEntries mmap v.section_hdr_offset v.section_hdr_ent_sz v.section_hdr_ent_num with
    | LoadResult.undef => LoadResult.undef
    | LoadResult.err e => LoadResult.err e
    | LoadResult.ok ents =>
      match selectShstrEntry v ents with
      | LoadResult.undef => LoadResult.undef
      | LoadResult.err e => LoadResult.err e
      | LoadResult.ok sel =>
        match sliceBytes mmap sel.offset sel.size with
        | none => LoadResult.err LoadErr.indexPanic
        | some bs =>
          match shViewLoop (StrTab.new bs) ents with
          | LoadResult.undef => LoadResult.undef
          | LoadResult.err e => LoadResult.err e
          | LoadResult.ok views => LoadResult.ok (StrTab.new bs, views)
  else LoadResult.ok (StrTab.empty, [])

/-- ctrl.rs `Elf::load_64_from_mmap`: file-header decode, section
resolution, `.strtab`/`.symtab`/`.dynstr`/`.dynsym` loads, and the `.bss`
peek (whose sliceBytes can panic), assembling the `Elf` aggregate. -/
def load_64_from_mmap (mmap : List Nat) : LoadResult Elf :=
  match sliceBytes mmap 0 64 with
  | none => LoadResult.err LoadErr.indexPanic
  | some hb =>
    match parseE64Hdr hb with
    | none => LoadResult.err LoadErr.decodeErr
    | some ehdr =>
      match E64Hdr.intoView ehdr with
      | none => LoadResult.undef
      | some v =>
        match resolveSections mmap v with
        | LoadResult.undef => LoadResult.undef
        | LoadResult.err e => LoadResult.err e
        | LoadResult.ok (shstrtab, shentries) =>
          match load_strtab_from_sh shentries strtabName mmap with
          | LoadResult.undef => LoadResult.undef
          | LoadResult.err e => LoadResult.err e
          | LoadResult.ok strtab =>
            match load_sym64tab_from_sh shentries symtabName strtab v.ty mmap with
            | LoadResult.undef => LoadResult.undef
            | LoadResult.err e => LoadResult.err e
            | LoadResult.ok symtab =>
              match load_strtab_from_sh shentries dynstrName mmap with
              | LoadResult.undef => LoadResult.undef
              | LoadResult.err e => LoadResult.err e
              | LoadResult.ok dynstr =>
                match load_sym64tab_from_sh shentries dynsymName dynstr v.ty mmap with
                | LoadResult.undef => LoadResult.undef
                | LoadResult.err e => LoadResult.err e
                | LoadResult.ok dynsym =>
                  match SHEntries.get shentries bssName with
                  | some sh =>
                    match sliceBytes mmap sh.offset sh.size with
                    | none => LoadResult.err LoadErr.indexPanic
                    | some _ =>
                      LoadResult.ok { ehdr := v, shstrtab := shstrtab,
                                      shentries := shentries, strtab := strtab,
                                      symtab := symtab, dynsym := dynsym }
                  | none =>
                    LoadResult.ok { ehdr := v, shstrtab := shstrtab,
                                    shentries := shentries, strtab := strtab,
                                    symtab := symtab, dynsym := dynsym }

/-- ctrl.rs `Elf::load_32_from_mmap`: `todo!()`, an explicit panic. -/
def load_32_from_mmap (_mmap : List Nat) : LoadResult Elf :=
  LoadResult.err LoadErr.todoPanic

/-- ctrl.rs `Elf::load`: decode the identification block from the first 16
bytes, convert it to its view (two unchecked transmutes), and dispatch on
the class: `Bit32` to the unimplemented 32-bit path, `Bit64` to the 64-bit
pipeline, anything else to the "Unknown Elf class" error carrying the
identification view. -/
def Elf.load (mmap : List Nat) : LoadResult Elf :=
  match sliceBytes mmap 0 16 with
  | none => LoadResult.err LoadErr.indexPanic
  | some ib =>
    match parseEIdent ib with
    | none => LoadResult.err LoadErr.decodeErr
    | some eident =>
      match EIdent.intoView eident with
      | none => LoadResult.undef
      | some v =>
        match v.cls with
        | EIClass.Bit32 => load_32_from_mmap mmap
        | EIClass.Bit64 => load_64_from_mmap mmap
        | EIClass.Invalid => LoadResult.err (LoadErr.unknownClass v)

/-! Amended-claim reference mapping for the section-type conversion -/

/-- The sixteen well-known section-type codes (tags 0 through 15) in
declaration order of the `SHType` enum. -/
def wellKnownSHType : Nat → SHType
  | 0 => SHType.NULL
  | 1 => SHType.PROGBITS
  | 2 => SHType.SYMtab
  | 3 => SHType.STRtab
  | 4 => SHType.RELA
  | 5 => SHType.HASH
  | 6 => SHType.DYNAMIC
  | 7 => SHType.NOTE
  | 8 => SHType.NOBITS
  | 9 => SHType.REL
  | 10 => SHType.SHLIB
  | 11 => SHType.INITARRAY
  | 12 => SHType.FINIARRAY
  | 13 => SHType.PREINITARRAY
  | 14 => SHType.GROUP
  | _ => SHType.SYMtabSHNDX

/-- The section-type mapping as the amended claim states it, written
independently of the implementation: the OS range maps to OS-specific, the
processor range to processor-specific, everything at or above 0x8000_0000
to user-specific, codes 0 through 15 to the well-known members, and every
remaining code (16 through 0x5fff_ffff) reaches an unchecked enum
reinterpretation with no defined result. -/
def shTypeAmendedSpec (v : Nat) : Option SHType :=
  if 0x60000000 ≤ v ∧ v ≤ 0x6fffffff then some (SHType.SPECOS v)
  else if 0x70000000 ≤ v ∧ v ≤ 0x7fffffff then some (SHType.SPECPROC v)
  else if 0x80000000 ≤ v then some (SHType.SPECUSER v)
  else if v < 16 then some (wellKnownSHType v)
  else none

/-! Concrete inputs used by the witnesses -/

/-- A minimal 64-byte little-endian file image: class 64-bit, LSB data,
type REL, machine x86-64, section-header offset 0. -/
def c7Mmap : List Nat :=
  [127, 69, 76, 70, 2, 1, 1, 0, 0, 0, 0, 0, 0, 0, 0, 16] ++ [1, 0] ++ [62, 0] ++
  [1, 0, 0, 0] ++ List.replicate 24 0 ++ [0, 0, 0, 0] ++ [64, 0] ++ List.replicate 10 0

/-- The raw file header decoded from `c7Mmap`. -/
def c7Hdr : E64Hdr :=
  { ident := { magic_nums := [127, 69, 76, 70], cls := 2, data := 1, version := 1,
               osabi := 0, abiversion := 0, pad := [0, 0, 0, 0, 0, 0], nident := 16 },
    ty := 1, machine := 62, version := 1, entry := 0, phoff := 0, shoff := 0,
    flags := 0, ehsize := 64, ph_tab_entry_size := 0, ph_tab_entry_num := 0,
    sh_tab_entry_size := 0, sh_tab_entry_num := 0, sh_strtab_idx := 0 }

/-- The header view of `c7Hdr`. -/
def c7View : EHdrView :=
  { ident := { magic_nums := [127, 69, 76, 70], cls := EIClass.Bit64, data := EIData.LSB,
               version := 1, osabi := 0, abiversion := 0, nident := 16 },
    ty := EType.REL, machine := EMachine.X86_64, version := 1, entry := 0,
    prog_hdr_offset := 0, section_hdr_offset := 0, flags := 0, elf_hdr_sz := 64,
    prog_hdr_tab_ent_sz := 0, prog_hdr_tab_ent_num := 0, section_hdr_ent_sz := 0,
    section_hdr_ent_num := 0, section_str_tab_idx := SID.Undef }

/-- A 193-byte image: header with section-header table at offset 64, two
64-byte section records, declared string-table index 0xffff (the escape),
record 0's link field naming record 1, whose [192, 193) range holds the
one-byte name table. -/
def c2Mmap : List Nat :=
  ([127, 69, 76, 70, 2, 1, 1, 0, 0, 0, 0, 0, 0, 0, 0, 16] ++ [1, 0] ++ [62, 0] ++
   [1, 0, 0, 0] ++ List.replicate 16 0 ++ [64, 0, 0, 0, 0, 0, 0, 0] ++ [0, 0, 0, 0] ++
   [64, 0] ++ [0, 0, 0, 0] ++ [64, 0] ++ [2, 0] ++ [255, 255]) ++
  (List.replicate 40 0 ++ [1, 0, 0, 0] ++ List.replicate 20 0) ++
  (List.replicate 24 0 ++ [192] ++ List.replicate 7 0 ++ [1] ++ List.replicate 7 0 ++
   List.replicate 24 0) ++
  [0]

/-- The raw file header decoded from `c2Mmap`. -/
def c2Hdr : E64Hdr :=
  { ident := { magic_nums := [127, 69, 76, 70], cls := 2, data := 1, version := 1,
               osabi := 0, abiversion := 0, pad := [0, 0, 0, 0, 0, 0], nident := 16 },
    ty := 1, machine := 62, version := 1, entry := 0, phoff := 0, shoff := 64,
    flags := 0, ehsize := 64, ph_tab_entry_size := 0, ph_tab_entry_num := 0,
    sh_tab_entry_size := 64, sh_tab_entry_num := 2, sh_strtab_idx := 65535 }

/-- The header view of `c2Hdr` (string-table index is the escape value). -/
def c2View : EHdrView :=
  { ident := { magic_nums := [127, 69, 76, 70], cls := EIClass.Bit64, data := EIData.LSB,
               version := 1, osabi := 0, abiversion := 0, nident := 16 },
    ty := EType.REL, machine := EMachine.X86_64, version := 1, entry := 0,
    prog_hdr_offset := 0, section_hdr_offset := 64, flags := 0, elf_hdr_sz := 64,
    prog_hdr_tab_ent_sz := 0, prog_hdr_tab_ent_num := 0, section_hdr_ent_sz := 64,
    section_hdr_ent_num := 2, section_str_tab_idx := SID.XIndex }

/-- Raw section record 0 of `c2Mmap`: its link field names index 1. -/
def c2RawSh0 : E64Shdr :=
  { name := 0, ty := 0, flags := 0, addr := 0, offset := 0, size := 0,
    link := 1, info := 0, addr_align := 0, ent_size := 0 }

/-- Raw section record 1 of `c2Mmap`: the actual name-table section. -/
def c2RawSh1 : E64Shdr :=
  { name := 0, ty := 0, flags := 0, addr := 0, offset := 192, size := 1,
    link := 0, info := 0, addr_align := 0, ent_size := 0 }

/-- The object loaded from `c2Mmap`. -/
def c2Elf : Elf :=
  { ehdr := c2View, shstrtab := StrTab.new [0],
    shentries :=
      [ { name := [], ty := SHType.NULL, flags := [], addr := 0, offset := 0,
          size := 0, link := 1, info := 0, addr_align := 0, ent_size := 0 },
        { name := [], ty := SHType.NULL, flags := [], addr := 0, offset := 192,
          size := 1, link := 0, info := 0, addr_align := 0, ent_size := 0 } ],
    strtab := StrTab.empty, symtab := [], dynsym := [] }

/-- A resolved `.symtab` section of one 24-byte record at offset 0. -/
def c1Sh : SHdrView :=
  { name := symtabName, ty := SHType.SYMtab, flags := [], addr := 0, offset := 0,
    size := 24, link := 0, info := 0, addr_align := 0, ent_size := 24 }

/-- One raw symbol record: section index 0xfff2 (Common), value 8. -/
def c1Mmap : List Nat :=
  [0, 0, 0, 0, 0, 0, 242, 255] ++ [8, 0, 0, 0, 0, 0, 0, 0] ++ List.replicate 8 0

/-- The symbol decoded from `c1Mmap` under a relocatable file type. -/
def c1Sym : SymView :=
  { name := [], bind := SymBinding.Local, ty := SymType.NoType, visi := SymVisi.Default,
    shndx := SID.Common, value := SymValue.Alignment 8, size := 0 }

/-- A `.symtab` section whose declared entry size 16 mismatches the 24-byte
symbol record. -/
def c5Sh : SHdrView :=
  { name := symtabName, ty := SHType.SYMtab, flags := [], addr := 0, offset := 0,
    size := 24, link := 0, info := 0, addr_align := 0, ent_size := 16 }

/-- A 16-byte identification block whose class byte is 3 (not a declared
class discriminant). -/
def c6BadClassMmap : List Nat := [0, 0, 0, 0, 3, 1, 0, 0, 0, 0, 0, 0, 0, 0, 0, 0]

/-- A 16-byte identification block with class byte 0 (`Invalid`). -/
def c6InvalidClassMmap : List Nat := [0, 0, 0, 0, 0, 1, 0, 0, 0, 0, 0, 0, 0, 0, 0, 0]

/-- The identification block decoded from `c6InvalidClassMmap`. -/
def c6Ident : EIdent :=
  { magic_nums := [0, 0, 0, 0], cls := 0, data := 1, version := 0, osabi := 0,
    abiversion := 0, pad := [0, 0, 0, 0, 0, 0], nident := 0 }

/-- The identification view carried by the Unknown-class error for
`c6InvalidClassMmap`. -/
def c6View : EIdentView :=
  { magic_nums := [0, 0, 0, 0], cls := EIClass.Invalid, data := EIData.LSB,
    version := 0, osabi := 0, abiversion := 0, nident := 0 }

/-- A raw symbol record whose name offset 5 misses the paired (empty)
string table. -/
def c9Sym : E64Sym := { name := 5, info := 0, other := 0, shndx := 0, value := 0, size := 0 }

/-- The view decoded from `c9Sym`: the failed name lookup degrades to the
empty string. -/
def c9View : SymView :=
  { name := [], bind := SymBinding.Local, ty := SymType.NoType, visi := SymVisi.Default,
    shndx := SID.Undef, value := SymValue.SectionOffset 0, size := 0 }

/-! Helper lemmas -/

theorem sid_roundtrip (v : Nat) : SID.intoUsize (SID.fromU16 v) = v := by
  unfold SID.fromU16
  split_ifs with h1 h2 h3 h4 h5 h6 <;> simp [SID.intoUsize] <;> omega

theorem mask_os_mod256 (v : Nat) : (v &&& 0x0ff00000) % 256 = 0 := by
  apply Nat.eq_of_testBit_eq
  intro i
  simp only [Nat.zero_testBit]
  rcases Nat.lt_or_ge i 8 with h | h
  · rw [show (256 : Nat) = 2 ^ 8 by norm_num, Nat.testBit_mod_two_pow]
    interval_cases i <;> simp [Nat.testBit_land] <;> intro _ <;> decide
  · exact Nat.testBit_eq_false_of_lt (lt_of_lt_of_le (Nat.mod_lt _ (by norm_num))
      (le_trans (by norm_num) (Nat.pow_le_pow_right (by norm_num) h)))

theorem mask_proc_mod256 (v : Nat) : (v &&& 0xf0000000) % 256 = 0 := by
  apply Nat.eq_of_testBit_eq
  intro i
  simp only [Nat.zero_testBit]
  rcases Nat.lt_or_ge i 8 with h | h
  · rw [show (256 : Nat) = 2 ^ 8 by norm_num, Nat.testBit_mod_two_pow]
    interval_cases i <;> simp [Nat.testBit_land] <;> intro _ <;> decide
  · exact Nat.testBit_eq_false_of_lt (lt_of_lt_of_le (Nat.mod_lt _ (by norm_num))
      (le_trans (by norm_num) (Nat.pow_le_pow_right (by norm_num) h)))

theorem transmuteSHType_none (v : Nat) (h16 : 16 ≤ v) : transmuteSHType v = none := by
  unfold transmuteSHType
  rw [if_neg (by omega : ¬v = 0), if_neg (by omega : ¬v = 1), if_neg (by omega : ¬v = 2),
      if_neg (by omega : ¬v = 3), if_neg (by omega : ¬v = 4), if_neg (by omega : ¬v = 5),
      if_neg (by omega : ¬v = 6), if_neg (by omega : ¬v = 7), if_neg (by omega : ¬v = 8),
      if_neg (by omega : ¬v = 9), if_neg (by omega : ¬v = 10), if_neg (by omega : ¬v = 11),
      if_neg (by omega : ¬v = 12), if_neg (by omega : ¬v = 13), if_neg (by omega : ¬v = 14),
      if_neg (by omega : ¬v = 15)]

theorem strEntGo_map_snd (l : List Nat) :
    ∀ start acc, (strEntGo l start acc).map Prod.snd = strVecGo l acc := by
  induction l with
  | nil => intro start acc; rfl
  | cons c rest ih =>
    intro start acc
    by_cases hc : c = 0
    · simp [strEntGo, strVecGo, hc, ih]
    · simp [strEntGo, strVecGo, hc, ih]

theorem takeWhile_ne_append (xs ys : List Nat) (h : ∀ x ∈ xs, x ≠ 0) :
    (xs ++ ys).takeWhile (fun c => c ≠ 0) = xs ++ ys.takeWhile (fun c => c ≠ 0) := by
  induction xs with
  | nil => rfl
  | cons a as ih =>
    have ha : a ≠ 0 := h a (by simp)
    simp only [List.cons_append, List.takeWhile_cons]
    simp only [decide_eq_true_eq] at *
    rw [if_pos ha, ih (fun x hx => h x (by simp [hx]))]

theorem strEntGo_get (b : List Nat) :
    ∀ l start acc, b.drop start = acc ++ l → (∀ x ∈ acc, x ≠ 0) →
      ∀ p ∈ strEntGo l start acc, StrTab.get (StrTab.new b) p.1 = some p.2 := by
  intro l
  induction l with
  | nil =>
    intro start acc hdrop hacc p hp
    cases hp
  | cons c rest ih =>
    intro start acc hdrop hacc p hp
    by_cases hc : c = 0
    · subst hc
      simp only [strEntGo, if_pos rfl] at hp
      rcases List.mem_cons.mp hp with he | htail
      · subst he
        have hlen : start < b.length := by
          by_contra hby
          have hnil : b.drop start = [] := List.drop_eq_nil_of_le (by omega)
          rw [hnil] at hdrop
          simp at hdrop
        unfold StrTab.get StrTab.new
        rw [if_neg (by simp; omega)]
        rw [hdrop, takeWhile_ne_append acc (0 :: rest) hacc]
        simp [List.takeWhile_cons]
      · apply ih (start + acc.length + 1) [] ?_ (by simp) p htail
        have hdd : b.drop (start + acc.length + 1) = (b.drop start).drop (acc.length + 1) := by
          rw [List.drop_drop]
          try congr 1
          try omega
        rw [hdd, hdrop]
        rw [show acc ++ 0 :: rest = (acc ++ [0]) ++ rest by simp]
        rw [show acc.length + 1 = (acc ++ [0]).length by simp]
        rw [List.drop_left]
        simp
    · simp only [strEntGo, if_neg hc] at hp
      apply ih start (acc ++ [c]) ?_ ?_ p hp
      · rw [hdrop]
        simp
      · intro x hx
        rcases List.mem_append.mp hx with h | h
        · exact hacc x h
        · simp at h
          subst h
          exact hc

theorem symLoop_mem (mmap : List Nat) (strtab : StrTab) (ety : EType)
    (sec_off sym_sz : Nat) :
    ∀ idxs syms, symLoop mmap strtab ety sec_off sym_sz idxs = LoadResult.ok syms →
      ∀ s ∈ syms, ∃ i, decodeSym mmap strtab ety sec_off sym_sz i = LoadResult.ok s := by
  intro idxs
  induction idxs with
  | nil =>
    intro syms hok s hs
    simp only [symLoop] at hok
    cases hok
    cases hs
  | cons i rest ih =>
    intro syms hok s hs
    simp only [symLoop] at hok
    cases hd : decodeSym mmap strtab ety sec_off sym_sz i <;> rw [hd] at hok
    · cases hok
    · cases hok
    · cases ht : symLoop mmap strtab ety sec_off sym_sz rest <;> rw [ht] at hok
      · cases hok
      · cases hok
      · cases hok
        rcases List.mem_cons.mp hs with h | h
        · exact ⟨i, h ▸ hd⟩
        · exact ih _ ht s h

theorem symViewOf_value_shape (strtab : StrTab) (ety : EType) (sym : E64Sym)
    (s : SymView) (hok : symViewOf strtab ety sym = LoadResult.ok s) :
    (ety = EType.REL →
      (s.shndx = SID.Common → ∃ v, s.value = SymValue.Alignment v) ∧
      (s.shndx ≠ SID.Common → ∃ v, s.value = SymValue.SectionOffset v))
    ∧ ((ety = EType.EXEC ∨ ety = EType.DYN) → ∃ v, s.value = SymValue.VirAddr v)
    ∧ (ety = EType.REL ∨ ety = EType.EXEC ∨ ety = EType.DYN) := by
  cases ety with
  | REL =>
    simp only [symViewOf, symValueOf] at hok
    cases hok
    refine ⟨fun _ => ⟨fun hc => ⟨sym.value, ?_⟩, fun hc => ⟨sym.value, ?_⟩⟩,
            ⟨fun hx => ?_, Or.inl rfl⟩⟩
    · simp_all
    · simp_all
    · rcases hx with h | h <;> exact nomatch h
  | EXEC =>
    simp only [symViewOf, symValueOf] at hok
    cases hok
    refine ⟨fun h => ?_, ⟨fun _ => ⟨sym.value, rfl⟩, Or.inr (Or.inl rfl)⟩⟩
    exact nomatch h
  | DYN =>
    simp only [symViewOf, symValueOf] at hok
    cases hok
    refine ⟨fun h => ?_, ⟨fun _ => ⟨sym.value, rfl⟩, Or.inr (Or.inr rfl)⟩⟩
    exact nomatch h
  | None => simp only [symViewOf, symValueOf] at hok; cases hok
  | CORE => simp only [symViewOf, symValueOf] at hok; cases hok
  | LOOS => simp only [symViewOf, symValueOf] at hok; cases hok
  | HIOS => simp only [symViewOf, symValueOf] at hok; cases hok
  | LOPROC => simp only [symViewOf, symValueOf] at hok; cases hok
  | HIPROC => simp only [symViewOf, symValueOf] at hok; cases hok

/-! Claim theorems -/

/-- C1: every symbol the symbol-table builder produces has its value field
interpreted from the file header's object type: for a Relocatable file the
value is an Alignment exactly when the symbol's resolved section index is
Common and a SectionOffset otherwise; for an Executable or Shared file it
is always a VirtualAddress; and a symbol can only be produced at all when
the file type is one of those three (any other type hits the builder's
unreachable-invariant panic, independent of the symbol's own type). -/
theorem c1_symbol_value_interpretation (shentries : List SHdrView) (secname : List Nat)
    (strtab : StrTab) (ety : EType) (mmap : List Nat) (syms : List SymView)
    (h : load_sym64tab_from_sh shentries secname strtab ety mmap = LoadResult.ok syms)
    (s : SymView) (hs : s ∈ syms) :
    (ety = EType.REL →
      (s.shndx = SID.Common → ∃ v, s.value = SymValue.Alignment v) ∧
      (s.shndx ≠ SID.Common → ∃ v, s.value = SymValue.SectionOffset v))
    ∧ ((ety = EType.EXEC ∨ ety = EType.DYN) → ∃ v, s.value = SymValue.VirAddr v)
    ∧ (ety = EType.REL ∨ ety = EType.EXEC ∨ ety = EType.DYN) := by
  unfold load_sym64tab_from_sh at h
  cases hget : SHEntries.get shentries secname <;> simp only [hget] at h
  · cases h
    cases hs
  · rename_i sh
    by_cases hsz : sh.ent_size ≠ 24
    · rw [if_pos hsz] at h
      cases h
    · rw [if_neg hsz] at h
      obtain ⟨i, hd⟩ := symLoop_mem mmap strtab ety sh.offset 24 _ _ h s hs
      unfold decodeSym at hd
      cases hsl : sliceBytes mmap (sh.offset + i * 24) 24 <;> simp only [hsl] at hd
      · cases hd
      · rename_i bs
        cases hpr : parseE64Sym bs <;> simp only [hpr] at hd
        · cases hd
        · exact symViewOf_value_shape strtab ety _ s hd

/-- C1 witness: a relocatable file with one Common symbol of raw value 8
yields an Alignment value. -/
theorem c1_symbol_value_interpretation_witness :
    ∃ v, c1Sym.value = SymValue.Alignment v :=
  ((c1_symbol_value_interpretation [c1Sh] symtabName StrTab.empty EType.REL c1Mmap
    [c1Sym] (by decide) c1Sym (by decide)).1 rfl).1 rfl

/-- C2: when a 64-bit load succeeds, the section-name string table it
returns was read from the byte range of the section record at index
`sections[0].link` whenever the header's declared string-table index is the
0xffff escape, and from the record at the declared index itself otherwise. -/
theorem c2_shstrtab_extended_index_escape (mmap : List Nat) (h64 : 64 ≤ mmap.length)
    (hdr : E64Hdr) (hp : parseE64Hdr (mmap.take 64) = some hdr)
    (v : EHdrView) (hv : E64Hdr.intoView hdr = some v)
    (hshoff : 0 < v.section_hdr_offset)
    (ents : List E64Shdr)
    (hents : parseShEntries mmap v.section_hdr_offset v.section_hdr_ent_sz
      v.section_hdr_ent_num = LoadResult.ok ents)
    (e : Elf) (hload : load_64_from_mmap mmap = LoadResult.ok e) :
    (v.section_str_tab_idx = SID.XIndex →
      ∀ e0 sel, ents[0]? = some e0 → ents[e0.link]? = some sel →
        e.shstrtab = StrTab.new ((mmap.drop sel.offset).take sel.size))
    ∧ (v.section_str_tab_idx ≠ SID.XIndex →
      ∀ sel, ents[hdr.sh_strtab_idx]? = some sel →
        e.shstrtab = StrTab.new ((mmap.drop sel.offset).take sel.size)) := by
  have hslice : sliceBytes mmap 0 64 = some (mmap.take 64) := by
    unfold sliceBytes
    rw [if_pos (by omega), List.drop_zero]
  have hidx : v.section_str_tab_idx = SID.fromU16 hdr.sh_strtab_idx := by
    unfold E64Hdr.intoView at hv
    cases h1 : EIdent.intoView hdr.ident <;> rw [h1] at hv
    · cases hv
    · cases h2 : EType.transmute hdr.ty <;> rw [h2] at hv
      · cases hv
      · cases h3 : EMachine.transmute hdr.machine <;> rw [h3] at hv
        · cases hv
        · cases hv
          rfl
  simp only [load_64_from_mmap, hslice, hp, hv] at hload
  cases hres : resolveSections mmap v <;> simp only [hres] at hload
  · cases hload
  · cases hload
  · rename_i p
    obtain ⟨shstr, views⟩ := p
    have hesh : e.shstrtab = shstr := by
      cases h1 : load_strtab_from_sh views strtabName mmap <;> simp only [h1] at hload
      · cases hload
      · cases hload
      · rename_i strtab1
        cases h2 : load_sym64tab_from_sh views symtabName strtab1 v.ty mmap <;>
          simp only [h2] at hload
        · cases hload
        · cases hload
        · rename_i symtab1
          cases h3 : load_strtab_from_sh views dynstrName mmap <;> simp only [h3] at hload
          · cases hload
          · cases hload
          · rename_i dynstr1
            cases h4 : load_sym64tab_from_sh views dynsymName dynstr1 v.ty mmap <;>
              simp only [h4] at hload
            · cases hload
            · cases hload
            · rename_i dynsym1
              cases h5 : SHEntries.get views bssName <;> simp only [h5] at hload
              · cases hload
                rfl
              · rename_i sh
                cases h6 : sliceBytes mmap sh.offset sh.size <;> simp only [h6] at hload
                · cases hload
                · cases hload
                  rfl
    unfold resolveSections at hres
    rw [if_pos hshoff] at hres
    simp only [hents] at hres
    constructor
    · intro hx e0 sel h0 hsel
      unfold selectShstrEntry at hres
      rw [if_pos hx] at hres
      simp only [h0, hsel] at hres
      cases hsl : sliceBytes mmap sel.offset sel.size <;> simp only [hsl] at hres
      · cases hres
      · rename_i bs
        cases hvl : shViewLoop (StrTab.new bs) ents <;> simp only [hvl] at hres
        · cases hres
        · cases hres
        · cases hres
          unfold sliceBytes at hsl
          by_cases hin : sel.offset + sel.size ≤ mmap.length
          · rw [if_pos hin] at hsl
            cases hsl
            exact hesh
          · rw [if_neg hin] at hsl
            cases hsl
    · intro hx sel hsel
      unfold selectShstrEntry at hres
      rw [if_neg hx] at hres
      have hiu : SID.intoUsize v.section_str_tab_idx = hdr.sh_strtab_idx := by
        rw [hidx]
        exact sid_roundtrip _
      rw [hiu] at hres
      simp only [hsel] at hres
      cases hsl : sliceBytes mmap sel.offset sel.size <;> simp only [hsl] at hres
      · cases hres
      · rename_i bs
        cases hvl : shViewLoop (StrTab.new bs) ents <;> simp only [hvl] at hres
        · cases hres
        · cases hres
        · cases hres
          unfold sliceBytes at hsl
          by_cases hin : sel.offset + sel.size ≤ mmap.length
          · rw [if_pos hin] at hsl
            cases hsl
            exact hesh
          · rw [if_neg hin] at hsl
            cases hsl

set_option maxRecDepth 100000 in
/-- C2 witness: on a concrete image whose declared index is the 0xffff
escape, the loaded name table is the byte range of the section named by
record 0's link field (index 1). -/
theorem c2_shstrtab_extended_index_escape_witness :
    c2Elf.shstrtab = StrTab.new ((c2Mmap.drop 192).take 1) :=
  (c2_shstrtab_extended_index_escape c2Mmap (by decide) c2Hdr (by decide) c2View
    (by decide) (by decide) [c2RawSh0, c2RawSh1] (by decide) c2Elf (by decide)).1
    rfl c2RawSh0 c2RawSh1 (by decide) (by decide)

/-- C3 counterexample: the claim says every value below 0x6000_0000 maps to
a member of the closed well-known set, in particular that codes between 16
and 0x5fff_ffff are handled by an explicit total mapping.  At code 16 the
source instead reaches `unsafe transmute::<u64, SHType>` with a bit
pattern that is not a fieldless discriminant of the enum, which has no
defined result (modelled as `none`): the conversion is not the claimed
total well-known mapping there. -/
theorem c3_section_type_counterexample : SHType.fromU32 16 = none := by decide

/-- C3 amended: the three high ranges decode as claimed and codes 0
through 15 decode to the well-known members, but every code from 16 up to
0x5fff_ffff falls into the unchecked enum reinterpretation, which has no
defined result. -/
theorem c3_section_type_mapping_amended (v : Nat) (h : v < 4294967296) :
    SHType.fromU32 v = shTypeAmendedSpec v := by
  unfold SHType.fromU32 shTypeAmendedSpec
  split_ifs with h1 h2 h3 h4
  · rfl
  · rfl
  · rfl
  · have h0 : v ≤ 15 := by omega
    clear h h1 h2 h3
    interval_cases v <;> rfl
  · exact transmuteSHType_none v (by omega)

/-- C3 witness: code 0x6000_0001 decodes to the OS-specific variant. -/
theorem c3_section_type_mapping_amended_witness :
    SHType.fromU32 1610612737 = shTypeAmendedSpec 1610612737 :=
  c3_section_type_mapping_amended 1610612737 (by decide)

/-- C4: evaluating the flag decode at the failing input 0x0010_0000 (an
OS-range bit) yields the empty token list, and in fact no input ever
produces an OS-mask or Processor-mask token: the source truncates
`(val & 0x0ff0_0000) as u8` and `(val & 0xf000_0000) as u8`, and both
masks clear the low eight bits, so both guards compare 0 > 0. -/
theorem c4_flag_decode_os_proc_never_emitted :
    SHFLAGS.fromU32 1048576 = [] ∧
    ∀ val : Nat, ((SHFLAGS.fromU32 val).all fun b =>
      match b with
      | SHFlagBit.OS _ => false
      | SHFlagBit.Proc _ => false
      | _ => true) = true := by
  constructor
  · decide
  · intro val
    simp only [SHFLAGS.fromU32, mask_os_mod256, mask_proc_mod256, gt_iff_lt,
      Nat.lt_irrefl, if_false, List.append_nil, List.all_append, Bool.and_eq_true]
    refine ⟨⟨⟨⟨⟨⟨⟨⟨⟨?_, ?_⟩, ?_⟩, ?_⟩, ?_⟩, ?_⟩, ?_⟩, ?_⟩, ?_⟩, ?_⟩ <;>
      split_ifs <;> rfl

/-- C5: building a symbol table from a present named section whose declared
fixed entry size differs from the 24-byte compiled size of a 64-bit symbol
record fails with the assertion panic instead of decoding the section. -/
theorem c5_entry_size_mismatch_fatal (shentries : List SHdrView) (secname : List Nat)
    (strtab : StrTab) (ety : EType) (mmap : List Nat) (sh : SHdrView)
    (hget : SHEntries.get shentries secname = some sh) (hsz : sh.ent_size ≠ 24) :
    load_sym64tab_from_sh shentries secname strtab ety mmap =
      LoadResult.err LoadErr.assertPanic := by
  unfold load_sym64tab_from_sh
  rw [hget]
  simp [hsz]

/-- C5 witness: a `.symtab` section declaring entry size 16 makes the
builder fail with the assertion panic. -/
theorem c5_entry_size_mismatch_fatal_witness :
    load_sym64tab_from_sh [c5Sh] symtabName StrTab.empty EType.REL [] =
      LoadResult.err LoadErr.assertPanic :=
  c5_entry_size_mismatch_fatal [c5Sh] symtabName StrTab.empty EType.REL [] c5Sh
    (by decide) (by decide)

/-- C6 counterexample: the claim says every class value other than the
32-bit and 64-bit ones makes the load fail with an UnknownClass-style
error.  With class byte 3 the load instead reaches
`unsafe transmute::<u8, EIClass>` on a bit pattern that is not a declared
discriminant, which has no defined result (`LoadResult.undef`, which is a
different constructor from every `LoadResult.err` value): no UnknownClass
error is produced there. -/
theorem c6_class_dispatch_counterexample :
    Elf.load c6BadClassMmap = LoadResult.undef := by decide

/-- C6 amended: class byte 2 dispatches to the 64-bit pipeline and class
byte 1 to the unimplemented 32-bit path, which fails explicitly with the
`todo` panic; class byte 0 fails with the Unknown-class error carrying the
identification view; class bytes 3 and above reach an unchecked enum
reinterpretation with no defined result; no Object is returned in any of
the failure cases. -/
theorem c6_class_dispatch_amended (mmap : List Nat) (h16 : 16 ≤ mmap.length)
    (id : EIdent) (hp : parseEIdent (mmap.take 16) = some id) (dv : EIData)
    (hdv : EIData.transmute id.data = some dv) :
    (id.cls = 2 → Elf.load mmap = load_64_from_mmap mmap)
    ∧ (id.cls = 1 → Elf.load mmap = LoadResult.err LoadErr.todoPanic)
    ∧ (id.cls = 0 → Elf.load mmap = LoadResult.err (LoadErr.unknownClass
        { magic_nums := id.magic_nums, cls := EIClass.Invalid, data := dv,
          version := id.version, osabi := id.osabi, abiversion := id.abiversion,
          nident := id.nident }))
    ∧ (3 ≤ id.cls → Elf.load mmap = LoadResult.undef) := by
  have hslice : sliceBytes mmap 0 16 = some (mmap.take 16) := by
    unfold sliceBytes
    rw [if_pos (by omega), List.drop_zero]
  refine ⟨fun hc => ?_, ⟨fun hc => ?_, ⟨fun hc => ?_, fun hc => ?_⟩⟩⟩
  · simp [Elf.load, hslice, hp, EIdent.intoView, EIClass.transmute, hc, hdv,
      load_32_from_mmap]
  · simp [Elf.load, hslice, hp, EIdent.intoView, EIClass.transmute, hc, hdv,
      load_32_from_mmap]
  · simp [Elf.load, hslice, hp, EIdent.intoView, EIClass.transmute, hc, hdv]
  · simp [Elf.load, hslice, hp, EIdent.intoView, EIClass.transmute, hdv,
      show ¬ id.cls = 0 from by omega, show ¬ id.cls = 1 from by omega,
      show ¬ id.cls = 2 from by omega]

/-- C6 witness: a class-0 identification block makes the load fail with the
Unknown-class error carrying the decoded identification view. -/
theorem c6_class_dispatch_amended_witness :
    Elf.load c6InvalidClassMmap = LoadResult.err (LoadErr.unknownClass c6View) :=
  (c6_class_dispatch_amended c6InvalidClassMmap (by decide) c6Ident (by decide)
    EIData.LSB (by decide)).2.2.1 rfl

/-- C7: a valid 64-bit input whose file header has section-header offset 0
loads successfully, with an empty resolved section sequence, an empty
section-name string table, and consequently empty string/symbol tables. -/
theorem c7_zero_shoff_empty (mmap : List Nat) (h64 : 64 ≤ mmap.length) (hdr : E64Hdr)
    (hp : parseE64Hdr (mmap.take 64) = some hdr) (v : EHdrView)
    (hv : E64Hdr.intoView hdr = some v) (hoff : v.section_hdr_offset = 0) :
    load_64_from_mmap mmap = LoadResult.ok
      { ehdr := v, shstrtab := StrTab.empty, shentries := [],
        strtab := StrTab.empty, symtab := [], dynsym := [] } := by
  have hslice : sliceBytes mmap 0 64 = some (mmap.take 64) := by
    unfold sliceBytes
    rw [if_pos (by omega), List.drop_zero]
  have hres : resolveSections mmap v = LoadResult.ok (StrTab.empty, []) := by
    unfold resolveSections
    rw [hoff]
    simp
  simp only [load_64_from_mmap, hslice, hp, hv, hres]
  rfl

/-- C7 witness: the concrete 64-byte image with section-header offset 0
loads to the empty-sections object. -/
theorem c7_zero_shoff_empty_witness :
    load_64_from_mmap c7Mmap = LoadResult.ok
      { ehdr := c7View, shstrtab := StrTab.empty, shentries := [],
        strtab := StrTab.empty, symtab := [], dynsym := [] } :=
  c7_zero_shoff_empty c7Mmap (by decide) c7Hdr (by decide) c7View (by decide) rfl

/-- C8: enumerating a string table's entries (splitting on NUL from
position 1, as `str_vec` does) and re-locating each enumerated entry by its
starting byte offset through `get` returns the identical string for every
entry; the offset-carrying enumeration projects exactly to `str_vec`. -/
theorem c8_strtab_roundtrip (b : List Nat) :
    ((strEntriesWithOff b).map Prod.snd = StrTab.str_vec (StrTab.new b))
    ∧ (∀ p ∈ strEntriesWithOff b, StrTab.get (StrTab.new b) p.1 = some p.2) := by
  constructor
  · cases b with
    | nil => rfl
    | cons x rest => exact strEntGo_map_snd rest 1 []
  · intro p hp
    cases b with
    | nil => cases hp
    | cons x rest =>
      apply strEntGo_get (x :: rest) rest 1 [] ?_ (by simp) p hp
      simp

/-- C8 witness: on the buffer [0, 97, 0] the single enumerated entry is
"a" at offset 1, and `get 1` returns it unchanged. -/
theorem c8_strtab_roundtrip_witness :
    ((strEntriesWithOff [0, 97, 0]).map Prod.snd = StrTab.str_vec (StrTab.new [0, 97, 0]))
    ∧ StrTab.get (StrTab.new [0, 97, 0]) 1 = some [97] :=
  ⟨(c8_strtab_roundtrip [0, 97, 0]).1,
   (c8_strtab_roundtrip [0, 97, 0]).2 (1, [97]) (by decide)⟩

/-- C9: symbol-table building degrades instead of failing on missing
auxiliary data: an absent named section (such as `.dynsym`) yields the
empty symbol table rather than an error, and a present record whose
name-offset lookup misses the paired string table gets the empty string
as its name rather than aborting. -/
theorem c9_symtab_missing_degrades (shentries : List SHdrView) (secname : List Nat)
    (strtab : StrTab) (ety : EType) (mmap : List Nat) :
    (SHEntries.get shentries secname = none →
      load_sym64tab_from_sh shentries secname strtab ety mmap = LoadResult.ok [])
    ∧ (∀ sym : E64Sym, ∀ s : SymView, symViewOf strtab ety sym = LoadResult.ok s →
        strtab.get sym.name = none → s.name = []) := by
  constructor
  · intro hget
    unfold load_sym64tab_from_sh
    rw [hget]
  · intro sym s hok hget
    cases hval : symValueOf ety (SID.fromU16 sym.shndx) sym.value <;>
      simp only [symViewOf, hget, hval, Option.getD_none, LoadResult.ok.injEq] at hok
    · cases hok
    · cases hok
    · rw [← hok]

/-- C9 witness: with no sections at all, the `.dynsym` build returns the
empty table; a symbol whose name offset 5 misses the empty string table
decodes with the empty name. -/
theorem c9_symtab_missing_degrades_witness :
    load_sym64tab_from_sh [] dynsymName StrTab.empty EType.REL [] = LoadResult.ok []
    ∧ c9View.name = [] :=
  ⟨(c9_symtab_missing_degrades [] dynsymName StrTab.empty EType.REL []).1 rfl,
   (c9_symtab_missing_degrades [] dynsymName StrTab.empty EType.REL []).2 c9Sym c9View
     (by decide) (by decide)⟩

/-- C10: classifying any 16-bit section-index value as a SID and converting
the SID back to a numeric index is the identity on the whole 16-bit
domain. -/
theorem c10_sid_classification_lossless (v : Nat) (_hv : v < 65536) :
    SID.intoUsize (SID.fromU16 v) = v := by
  exact sid_roundtrip v

/-- C10 witness: the OS-reserved index 0xff25 round-trips. -/
theorem c10_sid_classification_lossless_witness :
    SID.intoUsize (SID.fromU16 65317) = 65317 :=
  c10_sid_classification_lossless 65317 (by decide)
